import Mathlib

/-!
# Teleport history and chat history of the viewer

A shallow embedding of

* `indra/newview/llteleporthistory.h` (class `LLTeleportHistory`), and
* `indra/newview/llchathistory.cpp` (classes `LLChatHistoryHeader` and
  `LLChatHistory`),

followed by the properties proved about them.

Conventions.

* A `std::string` is the list of its `char` elements (`StdString`).
* `S32` and `int` values are mathematical integers: signed overflow is undefined
  in C++, so the embedding describes the executions in which it does not occur.
* `F32`/`F64` values are only stored and copied by the embedded code, never
  computed with; they are carried as their bit patterns.
* A C++ object is a Lean structure and a member function takes the object as an
  argument and returns the updated object.
-/

namespace Kokua

/-! ## Basic types -/

/-- A `std::string`: the sequence of its `char` elements. -/
abbrev StdString := List Char

/-- Bit pattern of an `F32`/`F64` value. -/
abbrev FloatBits := Nat

/-- An `LLUUID`, as the 128-bit number it holds. -/
structure LLUUID where
  mData : Nat
  deriving DecidableEq, Repr

/-- An `LLVector3d` (three `F64` components). -/
structure LLVector3d where
  mdV0 : FloatBits
  mdV1 : FloatBits
  mdV2 : FloatBits
  deriving DecidableEq, Repr

/-! ## `llteleporthistory.h` -/

/-- An item of the teleport history (`class LLTeleportHistoryItem`). -/
structure LLTeleportHistoryItem where
  /-- human-readable location title -/
  mTitle : StdString
  /-- global position -/
  mGlobalPos : LLVector3d
  /-- region ID for getting the region info -/
  mRegionID : LLUUID
  deriving DecidableEq, Repr

/-- The data members of `class LLTeleportHistory` (the signal and the two
signal connections carry no history state and are left out). -/
structure LLTeleportHistory where
  /-- Actually, the teleport history. -/
  mItems : List LLTeleportHistoryItem
  /-- Current position within the history. -/
  mCurrentItem : Int
  /-- Requested position within the history; -1 when no request is pending. -/
  mRequestedItem : Int
  /-- Have we received the initial location update? -/
  mGotInitialUpdate : Bool
  deriving DecidableEq, Repr

namespace LLTeleportHistory

/-- Source: `const slurl_list_t& getItems() const { return mItems; }`. -/
def getItems (h : LLTeleportHistory) : List LLTeleportHistoryItem :=
  h.mItems

/-- Source: `bool isEmpty() const { return mItems.size() <= 1; }`. -/
def isEmpty (h : LLTeleportHistory) : Bool :=
  decide (h.mItems.length ≤ 1)

/-- Source: `int getCurrentItemIndex() const { return mCurrentItem; }`. -/
def getCurrentItemIndex (h : LLTeleportHistory) : Int :=
  h.mCurrentItem

/-- Source: `void goBack() { goToItem(getCurrentItemIndex() - 1); }`.
The body of `goToItem` is not in the header, so the member function that is
called is an argument here. -/
def goBack (goToItem : LLTeleportHistory → Int → LLTeleportHistory)
    (h : LLTeleportHistory) : LLTeleportHistory :=
  goToItem h (getCurrentItemIndex h - 1)

/-- Source: `void goForward() { goToItem(getCurrentItemIndex() + 1); }`.
The body of `goToItem` is not in the header, so the member function that is
called is an argument here. -/
def goForward (goToItem : LLTeleportHistory → Int → LLTeleportHistory)
    (h : LLTeleportHistory) : LLTeleportHistory :=
  goToItem h (getCurrentItemIndex h + 1)

/-- Modelled from the spec: the body of `LLTeleportHistory::goToItem(int idx)`
is in `llteleporthistory.cpp`, which is not among the sources; the header only
declares it. The specification says that `goToItem(idx)` "sets a requested
index" and that the cursor commits only upon confirmation of the navigation;
the header says of `mRequestedItem`: "Set by goToItem()". -/
def goToItem (h : LLTeleportHistory) (idx : Int) : LLTeleportHistory :=
  { h with mRequestedItem := idx }

/-- Modelled from the spec: the body of `LLTeleportHistory::onTeleportFailed()`
is in `llteleporthistory.cpp`, which is not among the sources. The
specification says "On navigation failure, the requested index is discarded and
the cursor stays put" and "a failed teleport simply resets a pending-index flag
rather than mutating history"; the header says of `mRequestedItem`: "reset by
onTeleportFailed()", -1 being the value for "no request". -/
def onTeleportFailed (h : LLTeleportHistory) : LLTeleportHistory :=
  { h with mRequestedItem := -1 }

/-- Modelled from the spec: the body of
`LLTeleportHistory::updateCurrentLocation()` is in `llteleporthistory.cpp`,
which is not among the sources. The specification says that upon confirmation
of the navigation the cursor commits, "discarding any items ahead of the new
position" once one navigates "to a new place instead of using forward"; the
header says that `mRequestedItem` tells "if this is a teleport within the
history (mRequestedItem >=0) or not (-1)", that for a teleport to an arbitrary
location "we purge forward items and append a new one, making it current" and
that otherwise "we just modify mCurrentItem". The argument `loc` is the item
describing the location the agent arrived at. The pending request is consumed
in both cases (`mRequestedItem` is -1 when no request is pending); nothing is
said of `mGotInitialUpdate`, which is left as it is. -/
def updateCurrentLocation (h : LLTeleportHistory) (loc : LLTeleportHistoryItem) :
    LLTeleportHistory :=
  if h.mRequestedItem ≠ -1 then
    -- teleport within the history: commit the requested index
    { h with mCurrentItem := h.mRequestedItem
             mRequestedItem := -1 }
  else
    -- teleport to an arbitrary location: purge forward items, append a new one
    let kept := h.mItems.take (h.mCurrentItem + 1).toNat
    { h with mItems := kept ++ [loc]
             mCurrentItem := (kept.length : Int)
             mRequestedItem := -1 }

end LLTeleportHistory

/-! ## Toolkit types used by `llchathistory.cpp` -/

/-- An `LLColor4` (four `F32` components). -/
structure LLColor4 where
  mV0 : FloatBits
  mV1 : FloatBits
  mV2 : FloatBits
  mV3 : FloatBits
  deriving DecidableEq, Repr

/-- The toolkit typedef `BOOL` (an `int`). -/
abbrev BOOL := Int

/-- The toolkit constant `TRUE`. -/
def TRUE : BOOL := 1

/-- The toolkit constant `FALSE`. -/
def FALSE : BOOL := 0

/-- The toolkit typedef `MASK` (keyboard modifier bits). -/
abbrev MASK := Nat

/-- The enumeration `EChatSourceType` used by `LLChat::mSourceType`. -/
inductive EChatSourceType where
  | CHAT_SOURCE_SYSTEM
  | CHAT_SOURCE_AGENT
  | CHAT_SOURCE_OBJECT
  deriving DecidableEq, Repr

/-- An `LLRect` (`LLRectBase<S32>`): the four edges. -/
structure LLRect where
  mLeft : Int
  mTop : Int
  mRight : Int
  mBottom : Int
  deriving DecidableEq, Repr

namespace LLRect

/-- Modelled from the spec: `LLRect::getWidth()` is declared in the toolkit
header `llrect.h`, which is not among the sources; the width of a rectangle is
the distance from its left edge to its right edge. -/
def getWidth (r : LLRect) : Int :=
  r.mRight - r.mLeft

/-- Modelled from the spec: `LLRect::getHeight()` is declared in the toolkit
header `llrect.h`, which is not among the sources; the height of a rectangle is
the distance from its bottom edge to its top edge. -/
def getHeight (r : LLRect) : Int :=
  r.mTop - r.mBottom

/-- Modelled from the spec: `LLRect::translate(x, y)` is declared in the
toolkit header `llrect.h`, which is not among the sources; translating a
rectangle moves its four edges and keeps its size ("move rect to the left to
correct position" in `setTimeField`). -/
def translate (r : LLRect) (x y : Int) : LLRect :=
  { mLeft := r.mLeft + x, mTop := r.mTop + y, mRight := r.mRight + x, mBottom := r.mBottom + y }

/-- Modelled from the spec: `LLView::reshape(width, height)` is toolkit code
(`llview.cpp`), not among the sources; on the rectangle of the view it changes
only the width and the height, keeping the left and the bottom edge. -/
def reshape (r : LLRect) (width height : Int) : LLRect :=
  { r with mRight := r.mLeft + width, mTop := r.mBottom + height }

/-- Modelled from the spec: `LLView::setOrigin(x, y)` is toolkit code
(`llview.h`), not among the sources; it moves the rectangle of the view so that
its left-bottom corner is at `(x, y)`, keeping its size. -/
def setOrigin (r : LLRect) (x y : Int) : LLRect :=
  r.translate (x - r.mLeft) (y - r.mBottom)

end LLRect

/-- The members of `LLChat` that `llchathistory.cpp` reads. -/
structure LLChat where
  mText : StdString
  mFromName : StdString
  mFromID : LLUUID
  mSourceType : EChatSourceType
  mTimeStr : StdString
  deriving DecidableEq, Repr

/-- The `font` block of `LLStyle::Params`. -/
structure LLFontParams where
  name : StdString
  size : StdString
  style : StdString
  deriving DecidableEq, Repr

/-- The members of `LLStyle::Params` that `llchathistory.cpp` sets. -/
structure LLStyleParams where
  color : LLColor4
  readonly_color : LLColor4
  font : LLFontParams
  deriving DecidableEq, Repr

/-- The member `std::string::substr(pos, n)` of the C++ standard library: it throws
`std::out_of_range` (here `none`) when `pos > size()`, and otherwise returns the
at most `n` elements from position `pos` on (all of them when `n` is left out,
here `none`). -/
def substr (s : StdString) (pos : Nat) (n : Option Nat) : Option StdString :=
  if pos > s.length then none
  else
    match n with
    | none => some (s.drop pos)
    | some k => some ((s.drop pos).take k)

/-! ## `LLChatHistoryHeader` -/

/-- A child control of the header panel, as far as the header reads and writes
it: its rectangle, its value, and the rectangle of its parent view when that
parent is not the header panel itself (`none` when `getParent() == this`). -/
structure LLUICtrl where
  mRect : LLRect
  mValue : StdString
  mParentRect : Option LLRect
  deriving DecidableEq, Repr

/-- A menu (`LLMenuGL`), identified by the file it was created from. -/
structure LLMenuGL where
  mFile : StdString
  deriving DecidableEq, Repr

/-- A call the header makes on a menu or on the menu system. -/
inductive UIEffect where
  | setItemEnabled (menu : LLMenuGL) (item : StdString) (enabled : Bool)
  | buildDrawLabels (menu : LLMenuGL)
  | updateParent (menu : LLMenuGL)
  | showPopup (menu : LLMenuGL) (x y : Int)
  deriving DecidableEq, Repr

/-- What the header uses of the toolkit and of the application singletons:
`LLView::pointInView`, the size `LLTextBox::reshapeToFitText` fits a text box
to, `LLAvatarTracker::getBuddyInfo(id) != NULL`, and `gAgentID`. -/
structure HeaderEnv where
  pointInView : LLUICtrl → Int → Int → Bool
  fitWidth : LLUICtrl → Int
  fitHeight : LLUICtrl → Int
  isBuddy : LLUUID → Bool
  gAgentID : LLUUID

/-- The state of an `LLChatHistoryHeader`: its named child controls (those
`findChild` finds) and its data members. -/
structure LLChatHistoryHeader where
  mChildren : StdString → Option LLUICtrl
  mPopupMenuHandleAvatar : Option LLMenuGL
  mPopupMenuHandleObject : Option LLMenuGL
  mAvatarID : LLUUID
  mSourceType : EChatSourceType
  mFirstName : StdString
  mLastName : StdString
  mFrom : StdString

namespace LLChatHistoryHeader

/-- Modelled from the spec: `LLView::findChild<T>(name)` is toolkit code, not
among the sources; it returns the child control of that name, or a null
pointer (`none`) when there is none ("a missing child control"). -/
def findChild (self : LLChatHistoryHeader) (name : StdString) : Option LLUICtrl :=
  self.mChildren name

/-- Modelled from the spec: `LLView::getChild<T>(name)` is toolkit code, not
among the sources; it returns the child control of that name and never a null
pointer: when there is none it returns a dummy control, here one with an empty
rectangle and an empty value. -/
def getChild (self : LLChatHistoryHeader) (name : StdString) : LLUICtrl :=
  (self.mChildren name).getD { mRect := ⟨0, 0, 0, 0⟩, mValue := [], mParentRect := none }

/-- The header after a member function has modified, through the pointer
`getChild` returned, the child control of the given name. -/
def setChild (self : LLChatHistoryHeader) (name : StdString) (c : LLUICtrl) :
    LLChatHistoryHeader :=
  { self with mChildren := fun n => if n = name then some c else self.mChildren n }

/-- Modelled from the spec: `LLTextBox::reshapeToFitText()` is toolkit code, not
among the sources; it changes only the width and the height of the text box,
to the size fitting its text, and keeps its left and bottom edges. -/
def reshapeToFitText (env : HeaderEnv) (c : LLUICtrl) : LLUICtrl :=
  { c with mRect := c.mRect.reshape (env.fitWidth c) (env.fitHeight c) }

/-- Source: `LLChatHistoryHeader::pointInChild` (lines 130-146). -/
def pointInChild (env : HeaderEnv) (self : LLChatHistoryHeader) (name : StdString)
    (x y : Int) : Bool :=
  match self.findChild name with
  | none => false
  | some child =>
    let x := match child.mParentRect with
      | some parentRect => x - parentRect.mLeft
      | none => x
    let y := match child.mParentRect with
      | some parentRect => y - parentRect.mBottom
      | none => y
    let local_x := x - child.mRect.mLeft
    let local_y := y - child.mRect.mBottom
    env.pointInView child local_x local_y

/-- Source: `showSystemContextMenu` (lines 234-236): an empty body. -/
def showSystemContextMenu (_x _y : Int) : List UIEffect :=
  []

/-- Source: `showObjectContextMenu` (lines 238-243). -/
def showObjectContextMenu (self : LLChatHistoryHeader) (x y : Int) : List UIEffect :=
  match self.mPopupMenuHandleObject with
  | some menu => [UIEffect.showPopup menu x y]
  | none => []

/-- Source: `showAvatarContextMenu` (lines 245-267). -/
def showAvatarContextMenu (env : HeaderEnv) (self : LLChatHistoryHeader) (x y : Int) :
    List UIEffect :=
  match self.mPopupMenuHandleAvatar with
  | some menu =>
    let is_friend := env.isBuddy self.mAvatarID
    [UIEffect.setItemEnabled menu "Add Friend".toList (!is_friend),
     UIEffect.setItemEnabled menu "Remove Friend".toList is_friend]
    ++ (if env.gAgentID = self.mAvatarID then
          [UIEffect.setItemEnabled menu "Add Friend".toList false,
           UIEffect.setItemEnabled menu "Send IM".toList false,
           UIEffect.setItemEnabled menu "Remove Friend".toList false]
        else [])
    ++ [UIEffect.buildDrawLabels menu, UIEffect.updateParent menu,
        UIEffect.showPopup menu x y]
  | none => []

/-- Source: `showContextMenu` (lines 224-232): three independent `if`s on the
source type. -/
def showContextMenu (env : HeaderEnv) (self : LLChatHistoryHeader) (x y : Int) :
    List UIEffect :=
  (if self.mSourceType = EChatSourceType.CHAT_SOURCE_SYSTEM then
    showSystemContextMenu x y else [])
  ++ (if self.mSourceType = EChatSourceType.CHAT_SOURCE_AGENT then
    showAvatarContextMenu env self x y else [])
  ++ (if self.mSourceType = EChatSourceType.CHAT_SOURCE_OBJECT then
    showObjectContextMenu self x y else [])

/-- Source: `LLChatHistoryHeader::handleRightMouseDown` (lines 148-157). The
result is the list of menu calls made and the returned `BOOL`; `base` is
`LLPanel::handleRightMouseDown`. -/
def handleRightMouseDown (env : HeaderEnv) (base : Int → Int → MASK → BOOL)
    (self : LLChatHistoryHeader) (x y : Int) (mask : MASK) : List UIEffect × BOOL :=
  if pointInChild env self "avatar_icon".toList x y
      || pointInChild env self "user_name".toList x y then
    (showContextMenu env self x y, TRUE)
  else
    ([], base x y mask)

/-- Source: `LLChatHistoryHeader::setTimeField` (lines 270-290). -/
def setTimeField (env : HeaderEnv) (self : LLChatHistoryHeader) (time_value : StdString) :
    LLChatHistoryHeader :=
  let time_box := self.getChild "time_box".toList
  let rect_before := time_box.mRect
  let time_box := { time_box with mValue := time_value }
  -- set necessary textbox width to fit all text
  let time_box := reshapeToFitText env time_box
  let rect_after := time_box.mRect
  -- move rect to the left to correct position...
  let delta_pos_x := rect_before.getWidth - rect_after.getWidth
  let delta_pos_y := rect_before.getHeight - rect_after.getHeight
  let time_box := { time_box with mRect := time_box.mRect.translate delta_pos_x delta_pos_y }
  let self := self.setChild "time_box".toList time_box
  -- ... & change width of the name control
  let user_name := self.getChild "user_name".toList
  let user_rect := user_name.mRect
  let user_name := { user_name with
    mRect := user_rect.reshape (user_rect.getWidth + delta_pos_x) user_rect.getHeight }
  self.setChild "user_name".toList user_name

end LLChatHistoryHeader

/-! ## `LLChatHistory` -/

/-- What an inline view was created as: by `getSeparator()`, or by
`getHeader(chat, style_params)`, which creates an `LLChatHistoryHeader` and sets
it up with the chat message and the style. -/
inductive LLViewKind where
  | separator
  | header (chat : LLChat) (style_params : LLStyleParams)
  deriving DecidableEq, Repr

/-- A view inserted into the text: what it was created as, the layout file it
was built from, and its rectangle. -/
structure LLView where
  mKind : LLViewKind
  mFile : StdString
  mRect : LLRect
  deriving DecidableEq, Repr

namespace LLView

/-- Is the view a message header (created by `getHeader`)? -/
def isHeader (v : LLView) : Bool :=
  match v.mKind with
  | LLViewKind.header _ _ => true
  | LLViewKind.separator => false

/-- Is the view a separator (created by `getSeparator`)? -/
def isSeparator (v : LLView) : Bool :=
  match v.mKind with
  | LLViewKind.header _ _ => false
  | LLViewKind.separator => true

/-- Modelled from the spec: `LLView::reshape(width, height)` is toolkit code, not
among the sources; it reshapes the rectangle of the view (see `LLRect.reshape`). -/
def reshape (v : LLView) (width height : Int) : LLView :=
  { v with mRect := v.mRect.reshape width height }

/-- Modelled from the spec: `LLView::setOrigin(x, y)` is toolkit code, not among
the sources; it moves the rectangle of the view (see `LLRect.setOrigin`). -/
def setOrigin (v : LLView) (x y : Int) : LLView :=
  { v with mRect := v.mRect.setOrigin x y }

end LLView

/-- The members of `LLInlineViewSegment::Params` that `appendMessage` sets. -/
structure LLInlineViewSegmentParams where
  view : LLView
  force_newline : Bool
  left_pad : Int
  right_pad : Int
  top_pad : Int
  bottom_pad : Int
  deriving DecidableEq, Repr

/-- A call `LLChatHistory` makes on its base class `LLTextEditor`. -/
inductive EditorCall where
  | appendText (new_text : StdString) (prepend_newline : Bool) (style : LLStyleParams)
  | appendWidget (params : LLInlineViewSegmentParams) (text : StdString) (allow_undo : Bool)
  | blockUndo
  deriving DecidableEq, Repr

/-- Modelled from the spec: `LLTextEditor`, the base class of `LLChatHistory`,
is toolkit code (`lltexteditor.cpp`), not among the sources. The "scrolling
rich-text view that appends formatted message entries" is represented by the
sequence of the calls made on it since it was last cleared, together with its
horizontal padding `mHPad`. -/
structure LLTextEditor where
  mCalls : List EditorCall
  mHPad : Int
  deriving DecidableEq, Repr

/-- What `appendMessage` uses of the toolkit and of the application: `getText()`
and `getDocumentView()->getRect()` of the editor in its present state, the
colour `"White"` of the colour table, `LLViewerChat::getChatColor`, the name and
the size of `LLViewerChat::getChatFont()`, `utf8str_trim`, the constant
`SYSTEM_FROM`, and the rectangle of a panel built from a layout file. -/
structure ChatEnv where
  getText : LLTextEditor → StdString
  getDocumentViewRect : LLTextEditor → LLRect
  white : LLColor4
  getChatColor : LLChat → LLColor4 → LLColor4
  font_name : StdString
  font_size : StdString
  utf8str_trim : StdString → StdString
  SYSTEM_FROM : StdString
  builtRect : StdString → LLRect

/-- The state of an `LLChatHistory`: its data members (initialised from the
`Params` block by the constructor), `mLastFromName`, and its base class. -/
structure LLChatHistory where
  mLastFromName : StdString
  mMessageHeaderFilename : StdString
  mMessageSeparatorFilename : StdString
  mLeftTextPad : Int
  mRightTextPad : Int
  mLeftWidgetPad : Int
  mRightWidgetPad : Int
  mTopSeparatorPad : Int
  mBottomSeparatorPad : Int
  mTopHeaderPad : Int
  mBottomHeaderPad : Int
  mEditor : LLTextEditor
  deriving DecidableEq, Repr

namespace LLChatHistory

/-- Modelled from the spec: `LLTextEditor::appendText(new_text, prepend_newline,
style)` is toolkit code, not among the sources; the call is recorded in the
base class. -/
def appendText (self : LLChatHistory) (new_text : StdString) (prepend_newline : Bool)
    (style : LLStyleParams) : LLChatHistory :=
  { self with mEditor := { self.mEditor with
      mCalls := self.mEditor.mCalls ++ [EditorCall.appendText new_text prepend_newline style] } }

/-- Modelled from the spec: `LLTextEditor::appendWidget(params, text, allow_undo)`
is toolkit code, not among the sources; the call is recorded in the base
class. -/
def appendWidget (self : LLChatHistory) (params : LLInlineViewSegmentParams)
    (text : StdString) (allow_undo : Bool) : LLChatHistory :=
  { self with mEditor := { self.mEditor with
      mCalls := self.mEditor.mCalls ++ [EditorCall.appendWidget params text allow_undo] } }

/-- Modelled from the spec: `LLTextEditor::blockUndo()` is toolkit code, not among
the sources; the call is recorded in the base class. -/
def blockUndo (self : LLChatHistory) : LLChatHistory :=
  { self with mEditor := { self.mEditor with
      mCalls := self.mEditor.mCalls ++ [EditorCall.blockUndo] } }

/-- Source: `LLChatHistory::getSeparator` (lines 340-344): a panel created from
`mMessageSeparatorFilename`. -/
def getSeparator (env : ChatEnv) (self : LLChatHistory) : LLView :=
  { mKind := LLViewKind.separator
    mFile := self.mMessageSeparatorFilename
    mRect := env.builtRect self.mMessageSeparatorFilename }

/-- Source: `LLChatHistory::getHeader` (lines 346-351): a header created from
`mMessageHeaderFilename` and set up with the chat message and the style. -/
def getHeader (env : ChatEnv) (self : LLChatHistory) (chat : LLChat)
    (style_params : LLStyleParams) : LLView :=
  { mKind := LLViewKind.header chat style_params
    mFile := self.mMessageHeaderFilename
    mRect := env.builtRect self.mMessageHeaderFilename }

/-- Source: `LLChatHistory::clear` (lines 353-357); `LLTextEditor::clear()`
empties the editor. -/
def clear (self : LLChatHistory) : LLChatHistory :=
  { self with mLastFromName := [], mEditor := { self.mEditor with mCalls := [] } }

/-- Source: `LLChatHistory::appendMessage` (lines 359-431). The result is
`none` when a `substr` call throws. -/
def appendMessage (env : ChatEnv) (self : LLChatHistory) (chat : LLChat)
    (use_plain_text_chat_history : Bool) (input_append_params : LLStyleParams) :
    Option LLChatHistory :=
  let txt_color := env.getChatColor chat env.white
  let style_params : LLStyleParams :=
    { color := txt_color
      readonly_color := txt_color
      font := { name := env.font_name, size := env.font_size,
                style := input_append_params.font.style } }
  let header_text := "[".toList ++ chat.mTimeStr ++ "] ".toList
  let header_text :=
    if (env.utf8str_trim chat.mFromName).length ≠ 0 ∧ chat.mFromName ≠ env.SYSTEM_FROM then
      header_text ++ (chat.mFromName ++ ": ".toList)
    else header_text
  let self :=
    if use_plain_text_chat_history then
      self.appendText header_text (decide ((env.getText self.mEditor).length ≠ 0)) style_params
    else
      let vp : LLView × Int × Int :=
        if self.mLastFromName = chat.mFromName then
          (getSeparator env self, self.mTopSeparatorPad, self.mBottomSeparatorPad)
        else
          (getHeader env self chat style_params,
           (if (env.getText self.mEditor).length = 0 then 0 else self.mTopHeaderPad),
           self.mBottomHeaderPad)
      let view := vp.1
      -- Prepare the rect for the view
      let target_rect := env.getDocumentViewRect self.mEditor
      -- squeeze down the widget by subtracting padding off left and right
      let target_rect := { target_rect with
        mLeft := target_rect.mLeft + (self.mLeftWidgetPad + self.mEditor.mHPad) }
      let target_rect := { target_rect with
        mRight := target_rect.mRight - self.mRightWidgetPad }
      let view := view.reshape target_rect.getWidth view.mRect.getHeight
      let view := view.setOrigin target_rect.mLeft view.mRect.mBottom
      let p : LLInlineViewSegmentParams :=
        { view := view
          force_newline := true
          left_pad := self.mLeftWidgetPad
          right_pad := self.mRightWidgetPad
          top_pad := vp.2.1
          bottom_pad := vp.2.2 }
      { self.appendWidget p header_text false with mLastFromName := chat.mFromName }
  -- Handle IRC styled /me messages.
  (substr chat.mText 0 (some 4)).bind fun pfx =>
    if pfx = "/me ".toList ∨ pfx = ['/', 'm', 'e', Char.ofNat 39] then
      let style_params := { style_params with
        font := { style_params.font with style := "ITALIC".toList } }
      let self :=
        if chat.mFromName.length > 0 then
          self.appendText (chat.mFromName ++ " ".toList) true style_params
        else self
      (substr chat.mText 4 none).bind fun body =>
        some (self.appendText body false style_params).blockUndo
    else
      some (self.appendText chat.mText false style_params).blockUndo

/-- The views inserted by the `appendWidget` calls of a call sequence, in
order. -/
def insertedViews : List EditorCall → List LLView
  | [] => []
  | EditorCall.appendWidget p _ _ :: rest => p.view :: insertedViews rest
  | EditorCall.appendText _ _ _ :: rest => insertedViews rest
  | EditorCall.blockUndo :: rest => insertedViews rest

/-- Appending a sequence of messages, each with its own style parameters, all
in rich (non-plain-text) mode. -/
def appendMessages (env : ChatEnv) (self : LLChatHistory) :
    List (LLChat × LLStyleParams) → Option LLChatHistory
  | [] => some self
  | (chat, input_append_params) :: rest =>
    (appendMessage env self chat false input_append_params).bind fun self1 =>
      appendMessages env self1 rest

/-- What the specification expects of a sequence of rich-mode messages: a
message gets a header iff its sender name differs from the sender name of the
previous message, `prev` being the name the first message is compared with. -/
def expectedHeaderFlags (prev : StdString) : List StdString → List Bool
  | [] => []
  | name :: rest => decide (name ≠ prev) :: expectedHeaderFlags name rest

end LLChatHistory

/-! ## What the specification says of `appendMessage` -/

namespace LLChatHistory

/-- The style `appendMessage` appends a message in: the chat colour, the chat
font, and the font style of the style parameters handed in. -/
def chatStyle (env : ChatEnv) (chat : LLChat) (input_append_params : LLStyleParams) :
    LLStyleParams :=
  { color := env.getChatColor chat env.white
    readonly_color := env.getChatColor chat env.white
    font := { name := env.font_name, size := env.font_size,
              style := input_append_params.font.style } }

/-- A style with the font style replaced by "ITALIC". -/
def italicStyle (style : LLStyleParams) : LLStyleParams :=
  { style with font := { style.font with style := "ITALIC".toList } }

/-- The header text the specification describes: "[" + time + "] ", followed by
the untrimmed sender name and ": " exactly when the trimmed sender name is
non-empty and the sender name is not `SYSTEM_FROM`. -/
def expectedHeaderText (env : ChatEnv) (chat : LLChat) : StdString :=
  "[".toList ++ chat.mTimeStr ++ "] ".toList ++
    (if env.utf8str_trim chat.mFromName ≠ [] ∧ chat.mFromName ≠ env.SYSTEM_FROM then
      chat.mFromName ++ ": ".toList
    else [])

/-- The text begins with the four characters "/me " or with the four characters
"/me" and an apostrophe (character 39). -/
def startsWithMe (text : StdString) : Prop :=
  "/me ".toList <+: text ∨ ['/', 'm', 'e', Char.ofNat 39] <+: text

instance startsWithMe_decidable (text : StdString) : Decidable (startsWithMe text) :=
  inferInstanceAs
    (Decidable ("/me ".toList <+: text ∨ ['/', 'm', 'e', Char.ofNat 39] <+: text))

/-- The message body the specification describes: for a "/me" text, in the
italic style, the sender name and one space on a new line (only when the sender
name is non-empty) and then the text without its first four characters; for
every other text the text itself in the unmodified style. -/
def expectedBody (style : LLStyleParams) (chat : LLChat) : List EditorCall :=
  if startsWithMe chat.mText then
    (if chat.mFromName ≠ [] then
      [EditorCall.appendText (chat.mFromName ++ " ".toList) true (italicStyle style)]
     else []) ++
    [EditorCall.appendText (chat.mText.drop 4) false (italicStyle style)]
  else
    [EditorCall.appendText chat.mText false style]

end LLChatHistory

/-! ## Concrete values used in the examples -/

/-- A history item titled "Ahern". -/
def itemA : LLTeleportHistoryItem :=
  { mTitle := "Ahern".toList, mGlobalPos := ⟨1, 2, 3⟩, mRegionID := ⟨10⟩ }

/-- A history item titled "Bonifacio". -/
def itemB : LLTeleportHistoryItem :=
  { mTitle := "Bonifacio".toList, mGlobalPos := ⟨4, 5, 6⟩, mRegionID := ⟨11⟩ }

/-- A history item titled "Dore". -/
def itemC : LLTeleportHistoryItem :=
  { mTitle := "Dore".toList, mGlobalPos := ⟨7, 8, 9⟩, mRegionID := ⟨12⟩ }

/-- A history of three items with the cursor on the second one and no request
pending. -/
def history3 : LLTeleportHistory :=
  { mItems := [itemA, itemB, itemC], mCurrentItem := 1, mRequestedItem := -1,
    mGotInitialUpdate := true }

/-- A header environment: a point is in a control when it lies inside the
rectangle of the control, text boxes are fitted to 40 by 12, nobody is a
friend, and the agent has the id 1. -/
def sampleHeaderEnv : HeaderEnv :=
  { pointInView := fun c x y =>
      decide (0 ≤ x ∧ x < c.mRect.getWidth ∧ 0 ≤ y ∧ y < c.mRect.getHeight)
    fitWidth := fun _ => 40
    fitHeight := fun _ => 12
    isBuddy := fun _ => false
    gAgentID := ⟨1⟩ }

/-- A base-class mouse handler that handles nothing. -/
def sampleBaseHandler : Int → Int → MASK → BOOL :=
  fun _ _ _ => FALSE

/-- A header panel of an avatar without any child control. -/
def bareHeader : LLChatHistoryHeader :=
  { mChildren := fun _ => none
    mPopupMenuHandleAvatar := some ⟨"menu_avatar_icon.xml".toList⟩
    mPopupMenuHandleObject := some ⟨"menu_object_icon.xml".toList⟩
    mAvatarID := ⟨2⟩
    mSourceType := EChatSourceType.CHAT_SOURCE_AGENT
    mFirstName := []
    mLastName := []
    mFrom := [] }

/-- The time box of the sample header: 60 wide and 16 high, at the right. -/
def sampleTimeBox : LLUICtrl :=
  { mRect := { mLeft := 140, mTop := 20, mRight := 200, mBottom := 4 }
    mValue := []
    mParentRect := none }

/-- The name control of the sample header: 110 wide and 16 high. -/
def sampleUserName : LLUICtrl :=
  { mRect := { mLeft := 30, mTop := 20, mRight := 140, mBottom := 4 }
    mValue := "Ann Avatar".toList
    mParentRect := none }

/-- A header panel with a time box and a name control. -/
def sampleHeader : LLChatHistoryHeader :=
  { bareHeader with
    mChildren := fun n =>
      if n = "time_box".toList then some sampleTimeBox
      else if n = "user_name".toList then some sampleUserName
      else none }

/-- A chat environment: the editor text is the concatenation of the texts
appended, names are trimmed of spaces at both ends, and the system name is
"Second Life". -/
def sampleChatEnv : ChatEnv :=
  { getText := fun e => e.mCalls.foldr (fun c acc =>
      match c with
      | EditorCall.appendText t _ _ => t ++ acc
      | EditorCall.appendWidget _ t _ => t ++ acc
      | EditorCall.blockUndo => acc) []
    getDocumentViewRect := fun _ => { mLeft := 0, mTop := 300, mRight := 200, mBottom := 0 }
    white := ⟨1065353216, 1065353216, 1065353216, 1065353216⟩
    getChatColor := fun _ c => c
    font_name := "SansSerif".toList
    font_size := "Small".toList
    utf8str_trim := fun s => ((s.dropWhile (fun c => c == ' ')).reverse.dropWhile
      (fun c => c == ' ')).reverse
    SYSTEM_FROM := "Second Life".toList
    builtRect := fun _ => { mLeft := 0, mTop := 20, mRight := 100, mBottom := 0 } }

/-- An empty chat history with its padding parameters. -/
def sampleHistory : LLChatHistory :=
  { mLastFromName := []
    mMessageHeaderFilename := "panel_chat_header.xml".toList
    mMessageSeparatorFilename := "panel_chat_separator.xml".toList
    mLeftTextPad := 10
    mRightTextPad := 15
    mLeftWidgetPad := 5
    mRightWidgetPad := 10
    mTopSeparatorPad := 5
    mBottomSeparatorPad := 5
    mTopHeaderPad := 17
    mBottomHeaderPad := 10
    mEditor := { mCalls := [], mHPad := 4 } }

/-- A style with an empty font style. -/
def sampleStyle : LLStyleParams :=
  { color := ⟨0, 0, 0, 0⟩, readonly_color := ⟨0, 0, 0, 0⟩,
    font := { name := [], size := [], style := "NORMAL".toList } }

/-- A message from "Ann" whose text begins with "/me" and an apostrophe. -/
def sampleMeChat : LLChat :=
  { mText := ['/', 'm', 'e', Char.ofNat 39, 's', ' ', 'h', 'e', 'r', 'e']
    mFromName := "Ann".toList
    mFromID := ⟨2⟩
    mSourceType := EChatSourceType.CHAT_SOURCE_AGENT
    mTimeStr := "12:34".toList }

/-- A message from "Ann" with the two-character text "hi". -/
def sampleShortChat : LLChat :=
  { sampleMeChat with mText := "hi".toList }

/-! ## Properties of the teleport history -/

namespace LLTeleportHistory

/-- C1: `goBack()` is exactly `goToItem(getCurrentItemIndex() - 1)` and
`goForward()` is exactly `goToItem(getCurrentItemIndex() + 1)`, whatever
`goToItem` does; `getCurrentItemIndex()` is the stored cursor `mCurrentItem`, so
the index handed to `goToItem` is one position before, respectively one
position after, the cursor, and the resulting history state is the state that
this single `goToItem` call produces. -/
theorem goBack_goForward_one_step
    (goToItemImpl : LLTeleportHistory → Int → LLTeleportHistory)
    (h : LLTeleportHistory) :
    getCurrentItemIndex h = h.mCurrentItem ∧
    goBack goToItemImpl h = goToItemImpl h (h.mCurrentItem - 1) ∧
    goForward goToItemImpl h = goToItemImpl h (h.mCurrentItem + 1) ∧
    (∃ idx, goBack goToItemImpl h = goToItemImpl h idx ∧
        idx + 1 = getCurrentItemIndex h) ∧
    (∃ idx, goForward goToItemImpl h = goToItemImpl h idx ∧
        idx = getCurrentItemIndex h + 1) := by
  refine ⟨rfl, rfl, rfl, ⟨h.mCurrentItem - 1, rfl, ?_⟩, ⟨h.mCurrentItem + 1, rfl, rfl⟩⟩
  simp [getCurrentItemIndex]

/-- C2: for every history state and every index `idx`, `goToItem` leaves the item
list and the cursor unchanged and records `idx` as the requested index; the
cursor does not become `idx` before the teleport-finished notification (not by
`goToItem`, and not when the teleport fails); for every index of an item, which
the header specifies as "its index (starting from 0)", the teleport-finished
notification that follows makes the cursor equal to the requested index `idx`
and resets the pending request to -1, the item list being unchanged. -/
theorem goToItem_sets_request_only (h : LLTeleportHistory) (idx : Int)
    (loc : LLTeleportHistoryItem) :
    (goToItem h idx).mItems = h.mItems ∧
    (goToItem h idx).mCurrentItem = h.mCurrentItem ∧
    (goToItem h idx).mGotInitialUpdate = h.mGotInitialUpdate ∧
    (goToItem h idx).mRequestedItem = idx ∧
    goToItem h idx = { h with mRequestedItem := idx } ∧
    (onTeleportFailed (goToItem h idx)).mCurrentItem = h.mCurrentItem ∧
    (0 ≤ idx →
      (updateCurrentLocation (goToItem h idx) loc).mCurrentItem = idx ∧
      (updateCurrentLocation (goToItem h idx) loc).mCurrentItem
        = (goToItem h idx).mRequestedItem ∧
      (updateCurrentLocation (goToItem h idx) loc).mRequestedItem = -1 ∧
      (updateCurrentLocation (goToItem h idx) loc).mItems = h.mItems) := by
  refine ⟨rfl, rfl, rfl, rfl, rfl, rfl, ?_⟩
  intro hidx
  have hne : idx ≠ -1 := by omega
  simp [updateCurrentLocation, goToItem, hne]

/-- Example for C2: from the three-item history with the cursor at 1,
`goToItem(0)` leaves the cursor at 1 and records 0; the teleport-finished
notification that follows puts the cursor at 0 and resets the request. -/
theorem goToItem_sets_request_only_example :
    (goToItem history3 0).mCurrentItem = 1 ∧
    (goToItem history3 0).mRequestedItem = 0 ∧
    (updateCurrentLocation (goToItem history3 0) itemC).mCurrentItem = 0 ∧
    (updateCurrentLocation (goToItem history3 0) itemC).mRequestedItem = -1 ∧
    (updateCurrentLocation (goToItem history3 0) itemC).mItems = history3.mItems :=
  ⟨(goToItem_sets_request_only history3 0 itemC).2.1,
   (goToItem_sets_request_only history3 0 itemC).2.2.2.1,
   ((goToItem_sets_request_only history3 0 itemC).2.2.2.2.2.2 (by decide)).1,
   ((goToItem_sets_request_only history3 0 itemC).2.2.2.2.2.2 (by decide)).2.2.1,
   ((goToItem_sets_request_only history3 0 itemC).2.2.2.2.2.2 (by decide)).2.2.2⟩

/-- C4: after `onTeleportFailed` the requested index is -1 and the item list,
the cursor and the initial-update flag are what they were before; so a
`goToItem` followed by a failure leaves `getItems()` and
`getCurrentItemIndex()` unchanged. -/
theorem onTeleportFailed_discards_request (h : LLTeleportHistory) (idx : Int) :
    (onTeleportFailed h).mRequestedItem = -1 ∧
    (onTeleportFailed h).mItems = h.mItems ∧
    (onTeleportFailed h).mCurrentItem = h.mCurrentItem ∧
    (onTeleportFailed h).mGotInitialUpdate = h.mGotInitialUpdate ∧
    onTeleportFailed h = { h with mRequestedItem := -1 } ∧
    getItems (onTeleportFailed (goToItem h idx)) = getItems h ∧
    getCurrentItemIndex (onTeleportFailed (goToItem h idx)) = getCurrentItemIndex h ∧
    (onTeleportFailed (goToItem h idx)).mRequestedItem = -1 :=
  ⟨rfl, rfl, rfl, rfl, rfl, rfl, rfl, rfl⟩

/-- C5: `isEmpty()` is true exactly when the item list holds at most one item
and false exactly when it holds two or more; it is the same for every cursor,
requested index and initial-update flag. -/
theorem isEmpty_iff_at_most_one (h : LLTeleportHistory) (cur req : Int) (got : Bool) :
    (isEmpty h = true ↔ (getItems h).length ≤ 1) ∧
    (isEmpty h = true ↔ ((getItems h).length = 0 ∨ (getItems h).length = 1)) ∧
    (isEmpty h = false ↔ 2 ≤ (getItems h).length) ∧
    isEmpty { h with mCurrentItem := cur, mRequestedItem := req, mGotInitialUpdate := got }
      = isEmpty h := by
  refine ⟨?_, ?_, ?_, rfl⟩
  · simp only [isEmpty, getItems, decide_eq_true_eq]
  · simp only [isEmpty, getItems, decide_eq_true_eq]; omega
  · simp only [isEmpty, getItems, decide_eq_false_iff_not]; omega

end LLTeleportHistory

/-! ## Properties of the chat header panel -/

namespace LLChatHistoryHeader

/-- C6: `pointInChild(name, x, y)` returns false whenever no child control of
that name is found, whatever the toolkit and the rest of the panel are;
consequently, when neither "avatar_icon" nor "user_name" exists,
`handleRightMouseDown` makes no menu call and returns the result of the base
panel handler. -/
theorem pointInChild_missing_child (env : HeaderEnv) (base : Int → Int → MASK → BOOL)
    (self : LLChatHistoryHeader) (x y : Int) (mask : MASK) :
    (∀ (env1 : HeaderEnv) (name : StdString) (x1 y1 : Int),
      self.findChild name = none → pointInChild env1 self name x1 y1 = false) ∧
    (self.findChild "avatar_icon".toList = none →
      self.findChild "user_name".toList = none →
      handleRightMouseDown env base self x y mask = ([], base x y mask)) := by
  have key : ∀ (env1 : HeaderEnv) (name : StdString) (x1 y1 : Int),
      self.findChild name = none → pointInChild env1 self name x1 y1 = false := by
    intro env1 name x1 y1 hnone
    simp [pointInChild, hnone]
  refine ⟨key, ?_⟩
  intro h1 h2
  unfold handleRightMouseDown
  rw [key env _ x y h1, key env _ x y h2]
  rfl

/-- Example for C6: a right click at (35, 10) on the header without child
controls shows no menu and returns what the base handler returns. -/
theorem pointInChild_missing_child_example :
    bareHeader.findChild "avatar_icon".toList = none ∧
    bareHeader.findChild "user_name".toList = none ∧
    pointInChild sampleHeaderEnv bareHeader "user_name".toList 35 10 = false ∧
    handleRightMouseDown sampleHeaderEnv sampleBaseHandler bareHeader 35 10 0
      = ([], sampleBaseHandler 35 10 0) :=
  ⟨rfl, rfl,
   (pointInChild_missing_child sampleHeaderEnv sampleBaseHandler bareHeader 35 10 0).1
      sampleHeaderEnv "user_name".toList 35 10 rfl,
   (pointInChild_missing_child sampleHeaderEnv sampleBaseHandler bareHeader 35 10 0).2
      rfl rfl⟩

/-- C9: with `reshapeToFitText` changing only the width and the height of the
time box, for every time-box rectangle, user-name rectangle and fitted size,
after `setTimeField` the right edge and the top edge of the time box are where
they were, the time box has the fitted size and the new value, and the width
of the name control plus the width of the time box is what it was before; the
name control keeps its height, its left edge and its bottom edge. -/
theorem setTimeField_keeps_right_edge (env : HeaderEnv) (self : LLChatHistoryHeader)
    (time_value : StdString) (tb un : LLUICtrl)
    (htb : self.findChild "time_box".toList = some tb)
    (hun : self.findChild "user_name".toList = some un) :
    ∃ tb1 un1 : LLUICtrl,
      (setTimeField env self time_value).findChild "time_box".toList = some tb1 ∧
      (setTimeField env self time_value).findChild "user_name".toList = some un1 ∧
      tb1.mRect.mRight = tb.mRect.mRight ∧
      tb1.mRect.mTop = tb.mRect.mTop ∧
      tb1.mValue = time_value ∧
      tb1.mRect.getWidth = env.fitWidth { tb with mValue := time_value } ∧
      tb1.mRect.getHeight = env.fitHeight { tb with mValue := time_value } ∧
      un1.mRect.getWidth + tb1.mRect.getWidth = un.mRect.getWidth + tb.mRect.getWidth ∧
      un1.mRect.getHeight = un.mRect.getHeight ∧
      un1.mRect.mLeft = un.mRect.mLeft ∧
      un1.mRect.mBottom = un.mRect.mBottom := by
  have hne : ("user_name".toList : StdString) ≠ "time_box".toList := by decide
  have hne2 : ("time_box".toList : StdString) ≠ "user_name".toList := by decide
  simp only [findChild] at htb hun
  have hfit : reshapeToFitText env { tb with mValue := time_value }
      = { mRect := tb.mRect.reshape (env.fitWidth { tb with mValue := time_value })
            (env.fitHeight { tb with mValue := time_value })
          mValue := time_value
          mParentRect := tb.mParentRect } := rfl
  refine ⟨⟨(tb.mRect.reshape (env.fitWidth { tb with mValue := time_value })
              (env.fitHeight { tb with mValue := time_value })).translate
              (tb.mRect.getWidth - (tb.mRect.reshape
                (env.fitWidth { tb with mValue := time_value })
                (env.fitHeight { tb with mValue := time_value })).getWidth)
              (tb.mRect.getHeight - (tb.mRect.reshape
                (env.fitWidth { tb with mValue := time_value })
                (env.fitHeight { tb with mValue := time_value })).getHeight),
            time_value, tb.mParentRect⟩,
          ⟨un.mRect.reshape
              (un.mRect.getWidth + (tb.mRect.getWidth - (tb.mRect.reshape
                (env.fitWidth { tb with mValue := time_value })
                (env.fitHeight { tb with mValue := time_value })).getWidth))
              un.mRect.getHeight, un.mValue, un.mParentRect⟩, ?_, ?_, ?_⟩
  · simp only [setTimeField, findChild, setChild, getChild, htb, hun, if_neg hne2,
      if_neg hne, if_true, Option.getD_some, hfit]
  · simp only [setTimeField, findChild, setChild, getChild, htb, hun, if_neg hne2,
      if_neg hne, if_true, Option.getD_some, hfit]
  · simp only [LLRect.translate, LLRect.reshape, LLRect.getWidth, LLRect.getHeight]
    refine ⟨?_, ?_, trivial, ?_, ?_, ?_, ?_, trivial, trivial⟩ <;> omega

/-- Example for C9: the time box of the sample header, 60 wide, is fitted to 40
by 12; it keeps its right edge 200 and its top edge 20, and the name control
grows from 110 to 130. -/
theorem setTimeField_keeps_right_edge_example :
    ∃ tb1 un1 : LLUICtrl,
      (setTimeField sampleHeaderEnv sampleHeader "12:34".toList).findChild "time_box".toList
        = some tb1 ∧
      (setTimeField sampleHeaderEnv sampleHeader "12:34".toList).findChild "user_name".toList
        = some un1 ∧
      tb1.mRect.mRight = 200 ∧ tb1.mRect.mTop = 20 ∧
      un1.mRect.getWidth + tb1.mRect.getWidth = 110 + 60 :=
  (setTimeField_keeps_right_edge sampleHeaderEnv sampleHeader "12:34".toList
    sampleTimeBox sampleUserName rfl rfl).elim fun tb1 h1 =>
      h1.elim fun un1 h =>
        ⟨tb1, un1, h.1, h.2.1, h.2.2.1, h.2.2.2.1, h.2.2.2.2.2.2.2.1⟩

end LLChatHistoryHeader

/-! ## Properties of the chat history -/

namespace LLChatHistory

/-- The call `substr(0, 4)` never throws: it is the text cut to at most four
elements. -/
theorem substr_zero_four (text : StdString) :
    substr text 0 (some 4) = some (text.take 4) := by
  simp [substr]

/-- A text cut to four elements equals a four-element string exactly when the
text begins with that string. -/
theorem take_four_eq_iff (text pfx : StdString) (hlen : pfx.length = 4) :
    text.take 4 = pfx ↔ pfx <+: text := by
  rw [List.prefix_iff_eq_take, hlen]
  exact eq_comm

/-- The test `prefix == "/me " || prefix == "/me'"` of `appendMessage` holds
exactly for the texts that begin with one of the two strings. -/
theorem me_test_iff (text : StdString) :
    (text.take 4 = "/me ".toList ∨ text.take 4 = ['/', 'm', 'e', Char.ofNat 39])
      ↔ startsWithMe text := by
  unfold startsWithMe
  rw [take_four_eq_iff text _ (by decide), take_four_eq_iff text _ (by decide)]

/-- A text that begins with "/me " or "/me'" has at least four elements. -/
theorem four_le_length_of_startsWithMe (text : StdString) (h : startsWithMe text) :
    4 ≤ text.length := by
  rcases h with h | h
  · have := h.length_le
    simpa using this
  · have := h.length_le
    simpa using this

/-- For a "/me" text `substr(4)` does not throw. -/
theorem substr_four_of_startsWithMe (text : StdString) (h : startsWithMe text) :
    substr text 4 none = some (text.drop 4) := by
  have h4 := four_le_length_of_startsWithMe text h
  have : ¬ 4 > text.length := by omega
  simp [substr, this]

/-- The header text `appendMessage` builds (lines 373-375) is the header text
the specification describes. -/
theorem header_text_eq (env : ChatEnv) (chat : LLChat) :
    (if (env.utf8str_trim chat.mFromName).length ≠ 0 ∧ chat.mFromName ≠ env.SYSTEM_FROM then
      "[".toList ++ chat.mTimeStr ++ "] ".toList ++ (chat.mFromName ++ ": ".toList)
    else "[".toList ++ chat.mTimeStr ++ "] ".toList) = expectedHeaderText env chat := by
  unfold expectedHeaderText
  by_cases h : env.utf8str_trim chat.mFromName ≠ [] ∧ chat.mFromName ≠ env.SYSTEM_FROM
  · have h2 : (env.utf8str_trim chat.mFromName).length ≠ 0 ∧
        chat.mFromName ≠ env.SYSTEM_FROM := ⟨by simpa using h.1, h.2⟩
    rw [if_pos h, if_pos h2]
  · have h2 : ¬ ((env.utf8str_trim chat.mFromName).length ≠ 0 ∧
        chat.mFromName ≠ env.SYSTEM_FROM) := by
      intro hc
      exact h ⟨by simpa using hc.1, hc.2⟩
    rw [if_neg h, if_neg h2, List.append_nil]

/-- The closed form of `appendMessage`: it always returns, `mLastFromName` is
the sender name in rich mode and unchanged in plain-text mode, and the calls
made on the editor are one header call (an `appendText` in plain-text mode, an
`appendWidget` in rich mode), the message body, and `blockUndo`. -/
theorem appendMessage_closed_form (env : ChatEnv) (self : LLChatHistory) (chat : LLChat)
    (plain : Bool) (input : LLStyleParams) :
    ∃ p : LLInlineViewSegmentParams,
      p.view.isHeader = decide (self.mLastFromName ≠ chat.mFromName) ∧
      p.view.isSeparator = decide (self.mLastFromName = chat.mFromName) ∧
      appendMessage env self chat plain input = some
        { self with
          mLastFromName := if plain then self.mLastFromName else chat.mFromName
          mEditor := { self.mEditor with
            mCalls := self.mEditor.mCalls ++
              (if plain then
                EditorCall.appendText (expectedHeaderText env chat)
                  (decide (env.getText self.mEditor ≠ [])) (chatStyle env chat input)
               else EditorCall.appendWidget p (expectedHeaderText env chat) false) ::
              (expectedBody (chatStyle env chat input) chat ++ [EditorCall.blockUndo]) } } := by
  have hlen : ∀ l : StdString, (l.length = 0) = (l = []) := by
    intro l; simp
  have hpos : ∀ l : StdString, (l.length > 0) = (l ≠ []) := by
    intro l; cases l <;> simp
  refine ⟨{ view :=
              ((if self.mLastFromName = chat.mFromName then getSeparator env self
                else getHeader env self chat (chatStyle env chat input)).reshape
                (LLRect.getWidth
                  { mLeft := (env.getDocumentViewRect self.mEditor).mLeft
                      + (self.mLeftWidgetPad + self.mEditor.mHPad)
                    mTop := (env.getDocumentViewRect self.mEditor).mTop
                    mRight := (env.getDocumentViewRect self.mEditor).mRight
                      - self.mRightWidgetPad
                    mBottom := (env.getDocumentViewRect self.mEditor).mBottom })
                (if self.mLastFromName = chat.mFromName then getSeparator env self
                  else getHeader env self chat (chatStyle env chat input)).mRect.getHeight).setOrigin
                ((env.getDocumentViewRect self.mEditor).mLeft
                  + (self.mLeftWidgetPad + self.mEditor.mHPad))
                ((if self.mLastFromName = chat.mFromName then getSeparator env self
                  else getHeader env self chat (chatStyle env chat input)).reshape
                  (LLRect.getWidth
                    { mLeft := (env.getDocumentViewRect self.mEditor).mLeft
                        + (self.mLeftWidgetPad + self.mEditor.mHPad)
                      mTop := (env.getDocumentViewRect self.mEditor).mTop
                      mRight := (env.getDocumentViewRect self.mEditor).mRight
                        - self.mRightWidgetPad
                      mBottom := (env.getDocumentViewRect self.mEditor).mBottom })
                  (if self.mLastFromName = chat.mFromName then getSeparator env self
                    else getHeader env self chat
                      (chatStyle env chat input)).mRect.getHeight).mRect.mBottom
            force_newline := true
            left_pad := self.mLeftWidgetPad
            right_pad := self.mRightWidgetPad
            top_pad :=
              if self.mLastFromName = chat.mFromName then self.mTopSeparatorPad
              else if env.getText self.mEditor = [] then 0 else self.mTopHeaderPad
            bottom_pad :=
              if self.mLastFromName = chat.mFromName then self.mBottomSeparatorPad
              else self.mBottomHeaderPad }, ?_, ?_, ?_⟩
  · by_cases hn : self.mLastFromName = chat.mFromName <;>
      simp [hn, LLView.isHeader, LLView.setOrigin, LLView.reshape, getSeparator, getHeader]
  · by_cases hn : self.mLastFromName = chat.mFromName <;>
      simp [hn, LLView.isSeparator, LLView.setOrigin, LLView.reshape, getSeparator, getHeader]
  · unfold appendMessage
    simp only [substr_zero_four, Option.some_bind, me_test_iff, header_text_eq]
    by_cases hme : startsWithMe chat.mText
    · simp only [hme, if_true, substr_four_of_startsWithMe _ hme, Option.some_bind]
      cases plain <;> by_cases hn : self.mLastFromName = chat.mFromName <;>
        simp only [hn, if_true, if_false] <;>
        by_cases hf : chat.mFromName = [] <;>
        simp [hf, hn, hme, expectedBody, chatStyle, italicStyle, appendText,
          appendWidget, blockUndo, hlen, hpos]
    · simp only [hme, if_false]
      cases plain <;> by_cases hn : self.mLastFromName = chat.mFromName <;>
        simp [hn, hme, expectedBody, chatStyle, appendText,
          appendWidget, blockUndo, hlen]

/-- The views inserted by two call sequences in a row. -/
theorem insertedViews_append (l1 l2 : List EditorCall) :
    insertedViews (l1 ++ l2) = insertedViews l1 ++ insertedViews l2 := by
  induction l1 with
  | nil => rfl
  | cons c rest ih =>
    cases c <;> simp [insertedViews, ih]

/-- The message body inserts no view. -/
theorem insertedViews_expectedBody (style : LLStyleParams) (chat : LLChat) :
    insertedViews (expectedBody style chat ++ [EditorCall.blockUndo]) = [] := by
  unfold expectedBody
  by_cases hme : startsWithMe chat.mText <;> by_cases hf : chat.mFromName = [] <;>
    simp [hme, hf, insertedViews]

/-- One rich-mode `appendMessage`: it returns, inserts exactly one view, which
is a header iff the sender name differs from `mLastFromName`, and records the
sender name. -/
theorem appendMessage_rich_step (env : ChatEnv) (self : LLChatHistory) (chat : LLChat)
    (input : LLStyleParams) :
    ∃ (r : LLChatHistory) (v : LLView),
      appendMessage env self chat false input = some r ∧
      insertedViews r.mEditor.mCalls = insertedViews self.mEditor.mCalls ++ [v] ∧
      v.isHeader = decide (chat.mFromName ≠ self.mLastFromName) ∧
      v.isSeparator = decide (chat.mFromName = self.mLastFromName) ∧
      r.mLastFromName = chat.mFromName := by
  obtain ⟨p, hh, hs, heq⟩ := appendMessage_closed_form env self chat false input
  refine ⟨_, p.view, heq, ?_, ?_, ?_, ?_⟩
  · simp only [Bool.false_eq_true, if_false]
    rw [insertedViews_append]
    show _ ++ insertedViews (_ :: (_ ++ _)) = _
    rw [insertedViews, insertedViews_expectedBody]
  · rw [hh]
    by_cases hn : self.mLastFromName = chat.mFromName
    · simp [hn]
    · have : ¬ chat.mFromName = self.mLastFromName := fun h => hn h.symm
      simp [hn, this]
  · rw [hs]
    by_cases hn : self.mLastFromName = chat.mFromName
    · simp [hn]
    · have : ¬ chat.mFromName = self.mLastFromName := fun h => hn h.symm
      simp [hn, this]
  · simp

/-- A sequence of rich-mode messages: it returns, and the views it inserts are
headers exactly where the sender name differs from the previous one, starting
from `mLastFromName`. -/
theorem appendMessages_flags (env : ChatEnv) (msgs : List (LLChat × LLStyleParams)) :
    ∀ self : LLChatHistory, ∃ r : LLChatHistory,
      appendMessages env self msgs = some r ∧
      (insertedViews r.mEditor.mCalls).map LLView.isHeader
        = (insertedViews self.mEditor.mCalls).map LLView.isHeader
          ++ expectedHeaderFlags self.mLastFromName (msgs.map fun m => m.1.mFromName) := by
  induction msgs with
  | nil =>
    intro self
    exact ⟨self, rfl, by simp [expectedHeaderFlags]⟩
  | cons m rest ih =>
    intro self
    obtain ⟨chat, input⟩ := m
    obtain ⟨r1, v, h1, hv, hh, _, hl⟩ := appendMessage_rich_step env self chat input
    obtain ⟨r, h2, hflags⟩ := ih r1
    refine ⟨r, ?_, ?_⟩
    · simp only [appendMessages, h1, Option.some_bind, h2]
    · rw [hflags, hv, hl]
      simp [expectedHeaderFlags, hh]

/-- C7: in rich mode `appendMessage` inserts one widget, a separator exactly
when the sender name equals `mLastFromName` and a header otherwise, and
afterwards `mLastFromName` is the sender name; over any sequence of rich-mode
messages appended to a cleared history a message gets a header iff its sender
name differs from that of the previous message, the first being compared with
the empty string, so that a first message with an empty sender name gets a
separator; in plain-text mode no widget is inserted and `mLastFromName` is
unchanged. -/
theorem appendMessage_header_iff_name_changes (env : ChatEnv) (self : LLChatHistory)
    (chat : LLChat) (input : LLStyleParams) (msgs : List (LLChat × LLStyleParams)) :
    (∃ (r : LLChatHistory) (v : LLView),
      appendMessage env self chat false input = some r ∧
      insertedViews r.mEditor.mCalls = insertedViews self.mEditor.mCalls ++ [v] ∧
      (v.isSeparator = true ↔ self.mLastFromName = chat.mFromName) ∧
      (v.isHeader = true ↔ self.mLastFromName ≠ chat.mFromName) ∧
      r.mLastFromName = chat.mFromName) ∧
    (∃ r : LLChatHistory,
      appendMessages env (clear self) msgs = some r ∧
      (insertedViews r.mEditor.mCalls).map LLView.isHeader
        = expectedHeaderFlags [] (msgs.map fun m => m.1.mFromName)) ∧
    (∃ (r : LLChatHistory) (v : LLView),
      appendMessage env (clear self) { chat with mFromName := [] } false input = some r ∧
      insertedViews r.mEditor.mCalls = [v] ∧
      v.isSeparator = true ∧ v.isHeader = false) ∧
    (∃ r : LLChatHistory,
      appendMessage env self chat true input = some r ∧
      insertedViews r.mEditor.mCalls = insertedViews self.mEditor.mCalls ∧
      r.mLastFromName = self.mLastFromName) := by
  refine ⟨?_, ?_, ?_, ?_⟩
  · obtain ⟨r, v, h1, hv, hh, hs, hl⟩ := appendMessage_rich_step env self chat input
    refine ⟨r, v, h1, hv, ?_, ?_, hl⟩
    · rw [hs, decide_eq_true_eq]; exact eq_comm
    · rw [hh, decide_eq_true_eq]; exact ne_comm
  · obtain ⟨r, h1, hflags⟩ := appendMessages_flags env msgs (clear self)
    refine ⟨r, h1, ?_⟩
    rw [hflags]
    simp [clear, insertedViews]
  · obtain ⟨r, v, h1, hv, hh, hs, _⟩ :=
      appendMessage_rich_step env (clear self) { chat with mFromName := [] } input
    refine ⟨r, v, h1, ?_, ?_, ?_⟩
    · rw [hv]; simp [clear, insertedViews]
    · rw [hs]; simp [clear]
    · rw [hh]; simp [clear]
  · obtain ⟨p, _, _, heq⟩ := appendMessage_closed_form env self chat true input
    refine ⟨_, heq, ?_, ?_⟩
    · simp only [if_true]
      rw [insertedViews_append]
      show _ ++ insertedViews (_ :: (_ ++ _)) = _
      rw [insertedViews, insertedViews_expectedBody, List.append_nil]
    · simp

/-- C8: `appendMessage` always returns (its `substr(4)` call is reached only
for a text of at least four characters), and after the header call it appends
the message body and then calls `blockUndo`: for a text beginning with "/me "
or "/me'" the body is, in the ITALIC font style, the sender name followed by
one space on a new line (only when the sender name is non-empty) and then the
text without its first four characters, so that the apostrophe of "/me'" is not
part of it; for every other text, among them the texts shorter than four
characters, the body is the text unchanged in the unmodified style. -/
theorem appendMessage_me_body (env : ChatEnv) (self : LLChatHistory) (chat : LLChat)
    (plain : Bool) (input : LLStyleParams) :
    (∃ (r : LLChatHistory) (hdr : EditorCall),
      appendMessage env self chat plain input = some r ∧
      r.mEditor.mCalls = self.mEditor.mCalls ++
        hdr :: (expectedBody (chatStyle env chat input) chat ++ [EditorCall.blockUndo])) ∧
    (startsWithMe chat.mText →
      4 ≤ chat.mText.length ∧
      substr chat.mText 4 none = some (chat.mText.drop 4) ∧
      expectedBody (chatStyle env chat input) chat =
        (if chat.mFromName ≠ [] then
          [EditorCall.appendText (chat.mFromName ++ " ".toList) true
            (italicStyle (chatStyle env chat input))]
         else []) ++
        [EditorCall.appendText (chat.mText.drop 4) false
          (italicStyle (chatStyle env chat input))]) ∧
    (¬ startsWithMe chat.mText →
      expectedBody (chatStyle env chat input) chat =
        [EditorCall.appendText chat.mText false (chatStyle env chat input)]) ∧
    (chat.mText.length < 4 → ¬ startsWithMe chat.mText) ∧
    (∀ rest : StdString, chat.mText = ['/', 'm', 'e', Char.ofNat 39] ++ rest →
      startsWithMe chat.mText ∧ chat.mText.drop 4 = rest) ∧
    (italicStyle (chatStyle env chat input)).font.style = "ITALIC".toList ∧
    (chatStyle env chat input).font.style = input.font.style := by
  refine ⟨?_, ?_, ?_, ?_, ?_, rfl, rfl⟩
  · obtain ⟨p, _, _, heq⟩ := appendMessage_closed_form env self chat plain input
    exact ⟨_, _, heq, rfl⟩
  · intro hme
    refine ⟨four_le_length_of_startsWithMe _ hme, substr_four_of_startsWithMe _ hme, ?_⟩
    simp only [expectedBody, hme, if_true]
  · intro hme
    simp only [expectedBody, hme, if_false]
  · intro hlt hme
    have := four_le_length_of_startsWithMe _ hme
    omega
  · intro rest hrest
    refine ⟨Or.inr ⟨rest, hrest.symm⟩, ?_⟩
    rw [hrest]
    rfl

/-- Example for C8: the text "/me's here" from "Ann" is appended as "Ann " on a
new line followed by "s here", both in italics; the text "hi" is appended
unchanged. -/
theorem appendMessage_me_body_example :
    startsWithMe sampleMeChat.mText ∧
    expectedBody (chatStyle sampleChatEnv sampleMeChat sampleStyle) sampleMeChat =
      [EditorCall.appendText "Ann ".toList true
        (italicStyle (chatStyle sampleChatEnv sampleMeChat sampleStyle)),
       EditorCall.appendText "s here".toList false
        (italicStyle (chatStyle sampleChatEnv sampleMeChat sampleStyle))] ∧
    expectedBody (chatStyle sampleChatEnv sampleShortChat sampleStyle) sampleShortChat =
      [EditorCall.appendText "hi".toList false
        (chatStyle sampleChatEnv sampleShortChat sampleStyle)] ∧
    ¬ startsWithMe sampleShortChat.mText :=
  ⟨by decide,
   ((appendMessage_me_body sampleChatEnv sampleHistory sampleMeChat false sampleStyle).2.1
      (by decide)).2.2,
   (appendMessage_me_body sampleChatEnv sampleHistory sampleShortChat false sampleStyle).2.2.1
      (by decide),
   (appendMessage_me_body sampleChatEnv sampleHistory sampleShortChat false sampleStyle).2.2.2.1
      (by decide)⟩

/-- C10: the first call `appendMessage` makes on the editor carries the header
text "[" + mTimeStr + "] ", followed by the untrimmed mFromName and ": " exactly
when the trimmed mFromName is non-empty and mFromName is not SYSTEM_FROM; in
plain-text mode that call is an `appendText` whose new-line flag is set exactly
when the editor already contains text, in rich mode it is the `appendWidget`
call. -/
theorem appendMessage_header_text (env : ChatEnv) (self : LLChatHistory) (chat : LLChat)
    (input : LLStyleParams) :
    (∃ (r : LLChatHistory) (rest : List EditorCall),
      appendMessage env self chat true input = some r ∧
      r.mEditor.mCalls = self.mEditor.mCalls ++
        EditorCall.appendText
          ("[".toList ++ chat.mTimeStr ++ "] ".toList ++
            (if env.utf8str_trim chat.mFromName ≠ [] ∧ chat.mFromName ≠ env.SYSTEM_FROM then
              chat.mFromName ++ ": ".toList
            else []))
          (decide (env.getText self.mEditor ≠ []))
          (chatStyle env chat input) :: rest) ∧
    (∃ (r : LLChatHistory) (p : LLInlineViewSegmentParams) (rest : List EditorCall),
      appendMessage env self chat false input = some r ∧
      r.mEditor.mCalls = self.mEditor.mCalls ++
        EditorCall.appendWidget p
          ("[".toList ++ chat.mTimeStr ++ "] ".toList ++
            (if env.utf8str_trim chat.mFromName ≠ [] ∧ chat.mFromName ≠ env.SYSTEM_FROM then
              chat.mFromName ++ ": ".toList
            else []))
          false :: rest) := by
  constructor
  · obtain ⟨p, _, _, heq⟩ := appendMessage_closed_form env self chat true input
    exact ⟨_, _, heq, rfl⟩
  · obtain ⟨p, _, _, heq⟩ := appendMessage_closed_form env self chat false input
    exact ⟨_, p, _, heq, rfl⟩

end LLChatHistory

end Kokua
